import Mathlib

/-!
# golib: logger hierarchy, client configuration and configuration backings

A shallow embedding of `log/hierarchy.go` and `clientcfg/client.go`, together with
the parts of `distconf` those files and `distconf/zk_test.go` rely on.

Conventions of the embedding:

* Go objects reached through pointers live in an explicit heap (a map from addresses
  to objects); a pointer is the address.
* A value of interface type is an `Option`: `none` is the nil interface.
* A call of a method on a collaborator whose body is outside the embedded files is
  recorded as data (a `Call`), in program order.
* A Go function returning `(value, error)` returns a pair of options or an `Except`.
-/

namespace golib

/-! ## Values shared by the packages -/

/-- A non-nil Go `error`. `annotate` is the result of `errors.Annotate(err, msg)` on a
non-nil `err`. -/
inductive GoError where
  | new (msg : String)
  | annotate (cause : GoError) (msg : String)
  deriving DecidableEq, Repr

/-- The fields of `net/url.URL` that the embedded code reads or writes (`Path`), with the
other textual components of a hierarchical URL. -/
structure URL where
  Scheme : String
  Host : String
  Path : String
  RawQuery : String
  Fragment : String
  deriving DecidableEq, Repr

/-- A Go `[]byte` that is not nil. -/
abbrev Bytes := List UInt8

/-- An argument of a `Log(kvs ...interface{})` call. The three keys are the constants
`logkey.Endpoint`, `logkey.URL` and `log.Err`. -/
inductive LogVal where
  | str (s : String)
  | logkeyEndpoint
  | logkeyURL
  | logErr
  | err (e : GoError)
  | url (u : URL)
  deriving DecidableEq, Repr

namespace log

/-! ## `log/hierarchy.go` -/

/-- A non-nil value of the interface type `Logger`: either a `*Hierarchy` (the address of
the object) or a logger implemented elsewhere, known by an identifier only. -/
inductive LoggerImpl where
  | external (id : Nat)
  | hierarchy (addr : Nat)
  deriving DecidableEq, Repr

/-- The interface type `Logger`; `none` is the nil interface. -/
abbrev Logger := Option LoggerImpl

/-- One invocation of the method `Log`: the receiver and the arguments. -/
structure Call where
  receiver : LoggerImpl
  kvs : List LogVal
  deriving DecidableEq, Repr

/-- The struct `atomicStruct`. -/
structure atomicStruct where
  logger : Logger
  deriving DecidableEq, Repr

/-- The struct `Hierarchy`. Its field is an `atomic.Value`: `none` until the first
`Store`, afterwards the stored `atomicStruct`. -/
structure Hierarchy where
  logger : Option atomicStruct
  deriving DecidableEq, Repr

/-- The heap of `Hierarchy` objects. Addresses below `next` are allocated. -/
structure Heap where
  objs : Nat → Hierarchy
  next : Nat

/-- A heap with no allocated `Hierarchy`. -/
def Heap.empty : Heap :=
  { objs := fun _ => { logger := none }, next := 0 }

/-- `func (l *Hierarchy) Set(logger Logger)`: `l.logger.Store(atomicStruct{logger})`. -/
def Hierarchy.Set (m : Heap) (l : Nat) (logger : Logger) : Heap :=
  { m with objs := fun a => if a = l then { logger := some { logger := logger } } else m.objs a }

/-- `func NewHierarchy(defaultLogger Logger) *Hierarchy`: allocates `&Hierarchy{}` and
calls `Set` on it. -/
def NewHierarchy (m : Heap) (defaultLogger : Logger) : Nat × Heap :=
  let ret := m.next
  let m1 : Heap :=
    { objs := fun a => if a = ret then { logger := none } else m.objs a, next := m.next + 1 }
  (ret, Hierarchy.Set m1 ret defaultLogger)

/-- `func (l *Hierarchy) loadLogger() Logger`. -/
def Hierarchy.loadLogger (m : Heap) (l : Nat) : Logger :=
  match (m.objs l).logger with
  | some s => if s.logger ≠ none then s.logger else none
  | none => none

/-- `func (l *Hierarchy) Log(kvs ...interface{})`: the calls the body makes. -/
def Hierarchy.Log (m : Heap) (l : Nat) (kvs : List LogVal) : List Call :=
  match Hierarchy.loadLogger m l with
  | some logger => [{ receiver := logger, kvs := kvs }]
  | none => []

/-- `func (l *Hierarchy) CreateChild() *Hierarchy`. -/
def Hierarchy.CreateChild (m : Heap) (l : Nat) : Nat × Heap :=
  NewHierarchy m (some (LoggerImpl.hierarchy l))

/-- Dynamic dispatch of pending `Log` calls. Each step takes the first pending call,
records it, and, when the receiver is a `*Hierarchy`, runs the body of `Hierarchy.Log`,
whose calls come next. The result is every `Log` invocation that takes place, in order;
`none` when `fuel` steps do not suffice (a chain of hierarchies may be cyclic). -/
def exec : Nat → Heap → List Call → Option (List Call)
  | _, _, [] => some []
  | 0, _, _ :: _ => none
  | fuel + 1, m, c :: rest =>
    match c.receiver with
    | LoggerImpl.external _ => (exec fuel m rest).map (fun t => c :: t)
    | LoggerImpl.hierarchy a => (exec fuel m (Hierarchy.Log m a c.kvs ++ rest)).map (fun t => c :: t)

/-- A sequence of `Set` calls on one `Hierarchy`, in order. -/
def setAll (m : Heap) (l : Nat) (loggers : List Logger) : Heap :=
  loggers.foldl (fun mm x => Hierarchy.Set mm l x) m

/-- A sequence of `Set` calls on arbitrary hierarchies, in order. -/
def setMany (m : Heap) (ops : List (Nat × Logger)) : Heap :=
  ops.foldl (fun mm op => Hierarchy.Set mm op.1 op.2) m

end log

namespace time

/-- Go's `time.Duration`, a count of nanoseconds. -/
abbrev Duration := Int

/-- The constant `time.Second`. -/
def Second : Duration := 1000000000

end time

/-- Go's `bool`. -/
abbrev GoBool := Bool

namespace distconf

/-! ## The parts of `distconf` used by `clientcfg` and exercised by `zk_test.go` -/

/-- Modelled from the spec: a Raw Value, "an optional byte sequence (absence ≡ key
unset)". The source of package `distconf` is not among the embedded files. -/
abbrev RawValue := Option Bytes

/-- Modelled from the spec: the `Get` capability of a Backing, `Get(key) ->
(bytes-or-absent, error)`, which is all the typed registry needs to read a key. -/
structure Reader where
  Get : String → Except GoError RawValue

/-- Modelled from the spec: the in-memory test Backing. A key that was never written is
absent, not an error. -/
def Mem (store : List (String × Bytes)) : Reader :=
  { Get := fun key => Except.ok (store.lookup key) }

/-- Modelled from the spec: a Typed Value Handle for strings. It "owns a cached decoded
value, the originating Key, a default, and a set of user callbacks"; `cb` is the type of
the callbacks. -/
structure Str (cb : Type) where
  key : String
  defaultVal : String
  currentVal : String
  watches : List cb

/-- Modelled from the spec: a Typed Value Handle for durations. -/
structure Duration (cb : Type) where
  key : String
  defaultVal : time.Duration
  currentVal : time.Duration
  watches : List cb

/-- Modelled from the spec: a Typed Value Handle for booleans. -/
structure Bool (cb : Type) where
  key : String
  defaultVal : GoBool
  currentVal : GoBool
  watches : List cb

/-- Modelled from the spec: `Get()` on a handle returns the cached value. -/
def Str.Get {cb : Type} (s : Str cb) : String := s.currentVal

/-- Modelled from the spec: `Get()` on a handle returns the cached value. -/
def Duration.Get {cb : Type} (s : Duration cb) : time.Duration := s.currentVal

/-- Modelled from the spec: `Get()` on a handle returns the cached value. -/
def Bool.Get {cb : Type} (s : Bool cb) : GoBool := s.currentVal

/-- Modelled from the spec: `handle.Watch(fn)` registers a user callback; callbacks are
kept in registration order. -/
def Str.Watch {cb : Type} (s : Str cb) (fn : cb) : Str cb :=
  { s with watches := s.watches ++ [fn] }

/-- Modelled from the spec: `handle.Watch(fn)` registers a user callback. -/
def Duration.Watch {cb : Type} (s : Duration cb) (fn : cb) : Duration cb :=
  { s with watches := s.watches ++ [fn] }

/-- Modelled from the spec: `handle.Watch(fn)` registers a user callback. -/
def Bool.Watch {cb : Type} (s : Bool cb) (fn : cb) : Bool cb :=
  { s with watches := s.watches ++ [fn] }

/-- Modelled from the spec: the Typed Registry, a chain of Backings in the order given at
construction. The decoders of raw bytes (Go's string conversion, `strconv.ParseBool`,
`time.ParseDuration`) belong to the Go standard library and are parameters; `none` is a
parse failure. -/
structure Distconf where
  readers : List Reader
  decodeStr : Bytes → Option String
  decodeBool : Bytes → Option GoBool
  decodeDuration : Bytes → Option time.Duration

/-- Modelled from the spec: reading a key "through the composed Backing chain (first
Backing that has the key wins)". A Backing whose `Get` fails does not have the key. -/
def lookup : List Reader → String → RawValue
  | [], _ => none
  | r :: rest, key =>
    match r.Get key with
    | Except.ok (some v) => some v
    | _ => lookup rest key

/-- Modelled from the spec: the value a typed accessor caches: the decoded raw value, and
the default when the key is absent or "a parse failure ... falls back to `default`". -/
def resolve {α : Type} (raw : RawValue) (decode : Bytes → Option α) (defaultVal : α) : α :=
  match raw with
  | some b =>
    match decode b with
    | some v => v
    | none => defaultVal
  | none => defaultVal

/-- Modelled from the spec: `Str(key, default) -> StrHandle` (steps 1 and 2 of §4.4; a new
handle has no user callbacks). -/
def Distconf.Str {cb : Type} (d : Distconf) (key : String) (defaultVal : String) : Str cb :=
  { key := key, defaultVal := defaultVal,
    currentVal := resolve (lookup d.readers key) d.decodeStr defaultVal, watches := [] }

/-- Modelled from the spec: `Duration(key, default) -> DurationHandle`. -/
def Distconf.Duration {cb : Type} (d : Distconf) (key : String)
    (defaultVal : time.Duration) : Duration cb :=
  { key := key, defaultVal := defaultVal,
    currentVal := resolve (lookup d.readers key) d.decodeDuration defaultVal, watches := [] }

/-- Modelled from the spec: `Bool(key, default) -> BoolHandle`. -/
def Distconf.Bool {cb : Type} (d : Distconf) (key : String) (defaultVal : GoBool) : Bool cb :=
  { key := key, defaultVal := defaultVal,
    currentVal := resolve (lookup d.readers key) d.decodeBool defaultVal, watches := [] }

/-- Modelled from the spec: the Connection to the coordination service, as the Backing
sees it: the stored nodes, and a transport fault; while a fault is present every operation
on the connection fails with it ("Errors signal transport/coordination failures"). -/
structure ZkConn where
  nodes : String → RawValue
  fault : Option GoError

/-- Modelled from the spec: the Coordination-Service Backing in its Connected state: it
owns the current Connection and the keys of its watch registry. -/
structure zkConfig where
  conn : ZkConn
  watched : List String

/-- Modelled from the spec: construction "obtains a Connection via an injected connector
function"; "failure to connect at construction time is fatal to construction". -/
def Zk (connector : Unit → Except GoError ZkConn) : Except GoError zkConfig :=
  match connector () with
  | Except.error e => Except.error e
  | Except.ok conn => Except.ok { conn := conn, watched := [] }

/-- Modelled from the spec: `Get(key) -> (bytes-or-absent, error)`, served "directly
against the Connection"; "`Get` on a nonexistent key returns absent, not an error". -/
def zkConfig.Get (back : zkConfig) (key : String) : Except GoError RawValue :=
  match back.conn.fault with
  | some e => Except.error e
  | none => Except.ok (back.conn.nodes key)

/-- Modelled from the spec: `Write(key, bytes-or-absent) -> error`, served "directly
against the Connection"; "`Write` with an absent value deletes the key". The result is the
returned error (`none` is nil) and the backing afterwards. -/
def zkConfig.Write (back : zkConfig) (key : String) (value : RawValue) :
    Option GoError × zkConfig :=
  match back.conn.fault with
  | some e => (some e, back)
  | none =>
    (none, { back with
      conn := { back.conn with nodes := fun k => if k = key then value else back.conn.nodes k } })

end distconf

namespace timekeeper

/-- The interface `timekeeper.TimeKeeper`: the real clock `RealTime{}` or another
implementation. -/
inductive TimeKeeper where
  | RealTime
  | other (id : Nat)
  deriving DecidableEq, Repr

end timekeeper

namespace sfxclient

/-- The fields of `sfxclient.HTTPSink` that `clientcfg` assigns. -/
structure HTTPSink where
  AuthToken : String
  DatapointEndpoint : String
  DisableCompression : GoBool
  deriving DecidableEq, Repr

end sfxclient

namespace clientcfg

/-! ## `clientcfg/client.go` -/

/-- `strings.HasPrefix(s, p)`. -/
def stringsHasPrefix (s p : String) : GoBool := p.toList.isPrefixOf s.toList

/-- The struct `ClientConfigChangerSink`. `Destination` is the address of the
`sfxclient.HTTPSink`; the mutex `mu` guards the writes to it and has no counterpart in a
sequential model. -/
structure ClientConfigChangerSink where
  Destination : Nat
  logger : log.Logger
  urlParse : String → Except GoError URL

/-- The callbacks this package registers on string handles: the bound methods
`s.endpointWatch` and `s.authTokenWatch`. -/
inductive StrWatch where
  | endpointWatch (s : ClientConfigChangerSink)
  | authTokenWatch (s : ClientConfigChangerSink)

/-- The callbacks this package registers on boolean handles: the bound method
`s.disableCompressionWatch`. -/
inductive BoolWatch where
  | disableCompressionWatch (s : ClientConfigChangerSink)

/-- The callbacks this package registers on duration handles: none. -/
abbrev DurationWatch := Empty

/-- The struct `ClientConfig`. `OsHostname` is a Go function value; it runs in an
environment of type `σ`, which it may change. -/
structure ClientConfig (σ : Type) where
  SourceName : distconf.Str StrWatch
  AuthToken : distconf.Str StrWatch
  Endpoint : distconf.Str StrWatch
  ReportingInterval : distconf.Duration DurationWatch
  ReportingTimeoutInterval : distconf.Duration DurationWatch
  TimeKeeper : timekeeper.TimeKeeper
  OsHostname : σ → Except GoError String × σ
  DisableCompression : distconf.Bool BoolWatch
  DebugCollectDatapoints : distconf.Bool BoolWatch

/-- `func (c *ClientConfig) Load(d *distconf.Distconf)`. The argument `osHostname` is
`os.Hostname`. -/
def ClientConfig.Load {σ : Type} (c : ClientConfig σ)
    (osHostname : σ → Except GoError String × σ) (d : distconf.Distconf) : ClientConfig σ :=
  let c := { c with SourceName := d.Str "signalfuse.sourceName" "" }
  let c := { c with AuthToken := d.Str "sf.metrics.auth_token" "" }
  let c := { c with Endpoint := d.Str "sf.metrics.statsendpoint" "" }
  let c := { c with ReportingInterval := d.Duration "sf.metrics.report_interval" time.Second }
  let c := { c with TimeKeeper := timekeeper.TimeKeeper.RealTime }
  let c := { c with OsHostname := osHostname }
  let c := { c with DisableCompression := d.Bool "sf.metrics.disableCompression" false }
  let c := { c with
    ReportingTimeoutInterval := d.Duration "sf.metrics.report_timeout_interval" time.Second }
  let c := { c with DebugCollectDatapoints := d.Bool "sf.metrics.debug.collect.datapoints" false }
  c

/-- `func DefaultDimensions(conf *ClientConfig) (map[string]string, error)`. The result is
the returned pair (`none` is nil) and the environment after the call. -/
def DefaultDimensions {σ : Type} (conf : ClientConfig σ) (env : σ) :
    (Option (List (String × String)) × Option GoError) × σ :=
  let signalfuseSourceName := conf.SourceName.Get
  if signalfuseSourceName ≠ "" then
    ((some [("sf_source", signalfuseSourceName)], none), env)
  else
    match conf.OsHostname env with
    | (Except.error err, env1) =>
      ((none, some (GoError.annotate err "unable to get hostname for default source")), env1)
    | (Except.ok hostname, env1) => ((some [("sf_source", hostname)], none), env1)

/-- The state the sink methods act on: the heap of `sfxclient.HTTPSink` objects and the
calls of `Log` made so far, oldest first. -/
structure World where
  sinks : Nat → sfxclient.HTTPSink
  logged : List log.Call

/-- An assignment to a field of the `HTTPSink` at address `p`. -/
def World.assign (w : World) (p : Nat) (f : sfxclient.HTTPSink → sfxclient.HTTPSink) : World :=
  { w with sinks := fun a => if a = p then f (w.sinks a) else w.sinks a }

/-- A call `logger.Log(kvs...)` on a value of interface type: recorded when the logger is
not nil; `none` is the panic of a method call on a nil interface. -/
def callLog (logger : log.Logger) (kvs : List LogVal) (w : World) : Option World :=
  match logger with
  | none => none
  | some l => some { w with logged := w.logged ++ [{ receiver := l, kvs := kvs }] }

/-- `func (s *ClientConfigChangerSink) disableCompressionWatch(new *distconf.Bool, old bool)`. -/
def ClientConfigChangerSink.disableCompressionWatch (s : ClientConfigChangerSink)
    (new : distconf.Bool BoolWatch) (_old : GoBool) (w : World) : Option World :=
  match callLog s.logger [LogVal.str "disableCompression watch"] w with
  | none => none
  | some w1 => some (w1.assign s.Destination (fun d => { d with DisableCompression := new.Get }))

/-- `func (s *ClientConfigChangerSink) authTokenWatch(str *distconf.Str, oldValue string)`. -/
def ClientConfigChangerSink.authTokenWatch (s : ClientConfigChangerSink)
    (str : distconf.Str StrWatch) (_oldValue : String) (w : World) : Option World :=
  match callLog s.logger [LogVal.str "auth watch"] w with
  | none => none
  | some w1 => some (w1.assign s.Destination (fun d => { d with AuthToken := str.Get }))

/-- `func (s *ClientConfigChangerSink) endpointWatch(str *distconf.Str, oldValue string)`.
The argument `urlString` is the method `(*url.URL).String` of `net/url`. -/
def ClientConfigChangerSink.endpointWatch (urlString : URL → String)
    (s : ClientConfigChangerSink) (str : distconf.Str StrWatch) (_oldValue : String)
    (w : World) : Option World :=
  match callLog s.logger [LogVal.str "endpoint watch"] w with
  | none => none
  | some w1 =>
    let e := str.Get
    if e = "" then some w1
    else
      let e := if ¬ stringsHasPrefix e "http" then "http://" ++ e else e
      match s.urlParse e with
      | Except.error err =>
        callLog s.logger
          [LogVal.logkeyEndpoint, LogVal.str e, LogVal.logErr, LogVal.err err,
            LogVal.str "unable to parse URL"] w1
      | Except.ok u0 =>
        let u := if u0.Path = "" then { u0 with Path := "/v2/datapoint" } else u0
        if e ≠ "" then
          match callLog s.logger
              [LogVal.logkeyEndpoint, LogVal.str e, LogVal.logkeyURL, LogVal.url u,
                LogVal.str "updating reporter endpoint"] w1 with
          | none => none
          | some w2 =>
            some (w2.assign s.Destination (fun d => { d with DatapointEndpoint := urlString u }))
        else some w1

/-- `func WatchHTTPSinkChange(httpSink *sfxclient.HTTPSink, conf *ClientConfig, logger
log.Logger) *ClientConfigChangerSink`. The arguments `urlParse` and `urlString` are
`url.Parse` and `(*url.URL).String`. The result is the returned sink, the configuration
with the callbacks registered on its handles, and the state afterwards; `none` is a
panic. -/
def WatchHTTPSinkChange {σ : Type} (urlParse : String → Except GoError URL)
    (urlString : URL → String) (httpSink : Nat) (conf : ClientConfig σ)
    (logger : log.Logger) (w : World) :
    Option (ClientConfigChangerSink × ClientConfig σ × World) :=
  let ret : ClientConfigChangerSink :=
    { Destination := httpSink, urlParse := urlParse, logger := logger }
  match ret.authTokenWatch conf.AuthToken "" w with
  | none => none
  | some w1 =>
    match ret.endpointWatch urlString conf.Endpoint "" w1 with
    | none => none
    | some w2 =>
      match ret.disableCompressionWatch conf.DisableCompression false w2 with
      | none => none
      | some w3 =>
        let conf := { conf with Endpoint := conf.Endpoint.Watch (StrWatch.endpointWatch ret) }
        let conf := { conf with AuthToken := conf.AuthToken.Watch (StrWatch.authTokenWatch ret) }
        let conf := { conf with
          DisableCompression :=
            conf.DisableCompression.Watch (BoolWatch.disableCompressionWatch ret) }
        some (ret, conf, w3)

/-- A non-nil value of the interface type `sfxclient.Sink`: a `*sfxclient.HTTPSink` (its
address), a `*ClientConfigChangerSink`, or any other implementation. -/
inductive SinkImpl where
  | httpSink (p : Nat)
  | changerSink (s : ClientConfigChangerSink)
  | other (id : Nat)

/-- The interface type `sfxclient.Sink`; `none` is the nil interface. -/
abbrev Sink := Option SinkImpl

/-- The `*ClientConfigChangerSink` a sink value is, if it is one. -/
def Sink.asChangerSink : Sink → Option ClientConfigChangerSink
  | some (SinkImpl.changerSink s) => some s
  | _ => none

/-- `func WatchSinkChanges(sink sfxclient.Sink, conf *ClientConfig, logger log.Logger)
sfxclient.Sink`. -/
def WatchSinkChanges {σ : Type} (urlParse : String → Except GoError URL)
    (urlString : URL → String) (sink : Sink) (conf : ClientConfig σ)
    (logger : log.Logger) (w : World) : Option (Sink × ClientConfig σ × World) :=
  match sink with
  | some (SinkImpl.httpSink httpSink) =>
    match WatchHTTPSinkChange urlParse urlString httpSink conf logger w with
    | none => none
    | some r => some (some (SinkImpl.changerSink r.1), r.2.1, r.2.2)
  | _ => some (sink, conf, w)

/-! ### Stand-ins for the collaborators, used to run the code on concrete inputs -/

/-- A URL parser for texts of the shape `scheme://host/path`, standing in for `url.Parse`
on such texts. -/
def simpleURLParse (raw : String) : Except GoError URL :=
  let cs := raw.toList
  let rest := cs.dropWhile (fun c => c != ':')
  if "://".toList.isPrefixOf rest then
    let hostPath := rest.drop 3
    Except.ok
      { Scheme := String.mk (cs.takeWhile (fun c => c != ':')),
        Host := String.mk (hostPath.takeWhile (fun c => c != '/')),
        Path := String.mk (hostPath.dropWhile (fun c => c != '/')),
        RawQuery := "", Fragment := "" }
  else Except.error (GoError.new "missing protocol scheme")

/-- The text `scheme://host/path` of a URL without query and fragment, standing in for
`(*url.URL).String` on such URLs. -/
def simpleURLString (u : URL) : String := u.Scheme ++ "://" ++ u.Host ++ u.Path

/-- A hostname lookup that fails, counting its invocations in the environment. -/
def failingHostname (n : Nat) : Except GoError String × Nat :=
  (Except.error (GoError.new "no hostname"), n + 1)

/-- A hostname lookup that answers `host-a`, counting its invocations in the
environment. -/
def fixedHostname (n : Nat) : Except GoError String × Nat := (Except.ok "host-a", n + 1)

/-- A registry over a single in-memory Backing in which nothing was written. -/
def emptyRegistry : distconf.Distconf :=
  { readers := [distconf.Mem []], decodeStr := fun _ => none, decodeBool := fun _ => none,
    decodeDuration := fun _ => none }

/-- A string handle holding `v`. -/
def strHandle (key v : String) : distconf.Str StrWatch :=
  { key := key, defaultVal := "", currentVal := v, watches := [] }

/-- The configuration loaded from `emptyRegistry`. -/
def emptyConf : ClientConfig Nat :=
  ClientConfig.Load
    { SourceName := strHandle "" "", AuthToken := strHandle "" "", Endpoint := strHandle "" "",
      ReportingInterval := { key := "", defaultVal := 0, currentVal := 0, watches := [] },
      ReportingTimeoutInterval := { key := "", defaultVal := 0, currentVal := 0, watches := [] },
      TimeKeeper := timekeeper.TimeKeeper.other 0, OsHostname := failingHostname,
      DisableCompression := { key := "", defaultVal := false, currentVal := false, watches := [] },
      DebugCollectDatapoints :=
        { key := "", defaultVal := false, currentVal := false, watches := [] } }
    fixedHostname emptyRegistry

/-- A state in which every `HTTPSink` holds a stale token and has compression disabled,
and nothing was logged. -/
def staleWorld : World :=
  { sinks := fun _ =>
      { AuthToken := "stale", DatapointEndpoint := "", DisableCompression := true },
    logged := [] }

/-- A sink wrapper around the `HTTPSink` at address 0, with logger 5 and the stand-in
parser. -/
def sampleChangerSink : ClientConfigChangerSink :=
  { Destination := 0, logger := some (log.LoggerImpl.external 5), urlParse := simpleURLParse }

end clientcfg

end golib

/-! ## Theorems: `log/hierarchy.go` -/

namespace golib

namespace log

theorem loadLogger_Set_same (m : Heap) (l : Nat) (x : Logger) :
    Hierarchy.loadLogger (Hierarchy.Set m l x) l = x := by
  cases x <;> simp [Hierarchy.loadLogger, Hierarchy.Set]

theorem objs_Set_other (m : Heap) (l a : Nat) (x : Logger) (h : a ≠ l) :
    (Hierarchy.Set m l x).objs a = m.objs a := by
  simp [Hierarchy.Set, h]

theorem loadLogger_Set_other (m : Heap) (l a : Nat) (x : Logger) (h : a ≠ l) :
    Hierarchy.loadLogger (Hierarchy.Set m l x) a = Hierarchy.loadLogger m a := by
  simp [Hierarchy.loadLogger, objs_Set_other m l a x h]

theorem objs_setMany_other (ops : List (Nat × Logger)) (m : Heap) (a : Nat)
    (h : ∀ op ∈ ops, op.1 ≠ a) : (setMany m ops).objs a = m.objs a := by
  induction ops generalizing m with
  | nil => rfl
  | cons op ops ih =>
    have h1 : a ≠ op.1 := fun e => h op (List.mem_cons_self _ _) e.symm
    have h2 : ∀ o ∈ ops, o.1 ≠ a := fun o ho => h o (List.mem_cons_of_mem _ ho)
    show (setMany (Hierarchy.Set m op.1 op.2) ops).objs a = m.objs a
    rw [ih (Hierarchy.Set m op.1 op.2) h2, objs_Set_other m op.1 a op.2 h1]

theorem loadLogger_congr (m1 m2 : Heap) (a : Nat) (h : m1.objs a = m2.objs a) :
    Hierarchy.loadLogger m1 a = Hierarchy.loadLogger m2 a := by
  simp [Hierarchy.loadLogger, h]

theorem loadLogger_CreateChild (m : Heap) (p : Nat) :
    Hierarchy.loadLogger (Hierarchy.CreateChild m p).2 (Hierarchy.CreateChild m p).1
      = some (LoggerImpl.hierarchy p) := by
  simp [Hierarchy.CreateChild, NewHierarchy, loadLogger_Set_same]

theorem exec_hierarchy_step (fuel : Nat) (m : Heap) (a : Nat) (kvs : List LogVal)
    (rest : List Call) :
    exec (fuel + 1) m ({ receiver := LoggerImpl.hierarchy a, kvs := kvs } :: rest)
      = (exec fuel m (Hierarchy.Log m a kvs ++ rest)).map
          (fun t => { receiver := LoggerImpl.hierarchy a, kvs := kvs } :: t) := by
  simp [exec]

theorem exec_external_step (fuel : Nat) (m : Heap) (id : Nat) (kvs : List LogVal)
    (rest : List Call) :
    exec (fuel + 1) m ({ receiver := LoggerImpl.external id, kvs := kvs } :: rest)
      = (exec fuel m rest).map
          (fun t => { receiver := LoggerImpl.external id, kvs := kvs } :: t) := by
  simp [exec]

theorem exec_nil (fuel : Nat) (m : Heap) : exec fuel m [] = some [] := by
  cases fuel <;> simp [exec]

theorem Log_of_loadLogger (m : Heap) (l : Nat) (L : LoggerImpl) (kvs : List LogVal)
    (h : Hierarchy.loadLogger m l = some L) :
    Hierarchy.Log m l kvs = [{ receiver := L, kvs := kvs }] := by
  simp [Hierarchy.Log, h]

/-- C6: after any sequence of `Set` calls on a `Hierarchy` `h` that ends with `Set(L)` for
a non-nil logger `L`, the body of `h.Log(kvs...)` makes exactly one call, `L.Log(kvs...)`,
whatever loggers the earlier `Set` calls stored; every further invocation is one that
`L.Log` itself makes, and when `L` is a logger outside the hierarchy the run consists of
the call of `h.Log` and the single call of `L.Log`. -/
theorem Hierarchy_Log_last_Set_wins (m : Heap) (h : Nat) (earlier : List Logger)
    (L : LoggerImpl) (kvs : List LogVal) :
    Hierarchy.Log (Hierarchy.Set (setAll m h earlier) h (some L)) h kvs
        = [{ receiver := L, kvs := kvs }]
    ∧ (∀ E : LoggerImpl, some E ∈ earlier → E ≠ L →
        ∀ c ∈ Hierarchy.Log (Hierarchy.Set (setAll m h earlier) h (some L)) h kvs,
          c.receiver ≠ E)
    ∧ (∀ fuel : Nat,
        exec (fuel + 1) (Hierarchy.Set (setAll m h earlier) h (some L))
            [{ receiver := LoggerImpl.hierarchy h, kvs := kvs }]
          = (exec fuel (Hierarchy.Set (setAll m h earlier) h (some L))
              [{ receiver := L, kvs := kvs }]).map
              (fun t => { receiver := LoggerImpl.hierarchy h, kvs := kvs } :: t))
    ∧ (∀ id fuel : Nat, L = LoggerImpl.external id →
        exec (fuel + 2) (Hierarchy.Set (setAll m h earlier) h (some L))
            [{ receiver := LoggerImpl.hierarchy h, kvs := kvs }]
          = some [{ receiver := LoggerImpl.hierarchy h, kvs := kvs },
                  { receiver := L, kvs := kvs }]) := by
  have hlog := Log_of_loadLogger _ h L kvs (loadLogger_Set_same (setAll m h earlier) h (some L))
  refine ⟨hlog, ?_, ?_, ?_⟩
  · intro E _ hne c hc
    rw [hlog, List.mem_singleton] at hc
    rw [hc]
    exact fun e => hne e.symm
  · intro fuel
    rw [exec_hierarchy_step, hlog]
    rfl
  · intro id fuel hL
    subst hL
    rw [exec_hierarchy_step, hlog]
    simp [exec_external_step, exec_nil]

/-- Witness for C6: a hierarchy first pointing to logger 0, then set to logger 1, to nil
and finally to logger 2, forwards a message to logger 2 only. -/
theorem Hierarchy_Log_last_Set_wins_witness :
    Hierarchy.Log
        (Hierarchy.Set (setAll (NewHierarchy Heap.empty (some (LoggerImpl.external 0))).2 0
          [some (LoggerImpl.external 1), none]) 0 (some (LoggerImpl.external 2)))
        0 [LogVal.str "msg"]
      = [{ receiver := LoggerImpl.external 2, kvs := [LogVal.str "msg"] }]
    ∧ exec 2
        (Hierarchy.Set (setAll (NewHierarchy Heap.empty (some (LoggerImpl.external 0))).2 0
          [some (LoggerImpl.external 1), none]) 0 (some (LoggerImpl.external 2)))
        [{ receiver := LoggerImpl.hierarchy 0, kvs := [LogVal.str "msg"] }]
      = some [{ receiver := LoggerImpl.hierarchy 0, kvs := [LogVal.str "msg"] },
              { receiver := LoggerImpl.external 2, kvs := [LogVal.str "msg"] }]
    ∧ (∀ c ∈ Hierarchy.Log
          (Hierarchy.Set (setAll (NewHierarchy Heap.empty (some (LoggerImpl.external 0))).2 0
            [some (LoggerImpl.external 1), none]) 0 (some (LoggerImpl.external 2)))
          0 [LogVal.str "msg"],
        c.receiver ≠ LoggerImpl.external 1) :=
  ⟨(Hierarchy_Log_last_Set_wins (NewHierarchy Heap.empty (some (LoggerImpl.external 0))).2 0
      [some (LoggerImpl.external 1), none] (LoggerImpl.external 2) [LogVal.str "msg"]).1,
   (Hierarchy_Log_last_Set_wins (NewHierarchy Heap.empty (some (LoggerImpl.external 0))).2 0
      [some (LoggerImpl.external 1), none] (LoggerImpl.external 2) [LogVal.str "msg"]).2.2.2
      2 0 rfl,
   (Hierarchy_Log_last_Set_wins (NewHierarchy Heap.empty (some (LoggerImpl.external 0))).2 0
      [some (LoggerImpl.external 1), none] (LoggerImpl.external 2) [LogVal.str "msg"]).2.1
      (LoggerImpl.external 1) (by decide) (by decide)⟩

theorem CreateChild_fst (m : Heap) (p : Nat) : (Hierarchy.CreateChild m p).1 = m.next := rfl

theorem loadLogger_child_later (m : Heap) (p : Nat) (later : List (Nat × Logger))
    (hlater : ∀ op ∈ later, op.1 ≠ (Hierarchy.CreateChild m p).1) :
    Hierarchy.loadLogger (setMany (Hierarchy.CreateChild m p).2 later)
        (Hierarchy.CreateChild m p).1
      = some (LoggerImpl.hierarchy p) := by
  rw [loadLogger_congr _ (Hierarchy.CreateChild m p).2 _
    (objs_setMany_other later _ _ hlater)]
  exact loadLogger_CreateChild m p

/-- C7: let `c = p.CreateChild()` for an allocated hierarchy `p`, and let any later `Set`
calls happen on hierarchies other than `c`. Then the body of `c.Log(kvs...)` makes exactly
the call `p.Log(kvs...)`, so a run of `c.Log` is the call of `p.Log` followed by whatever
the logger `p` points to at that moment does. In particular, after a later `p.Set(L2)` with
`L2` non-nil, `p.Log` calls `L2.Log(kvs...)`, and for `L2` outside the hierarchy the run is
exactly: `c.Log`, `p.Log`, `L2.Log`. -/
theorem CreateChild_forwards_to_parent (m : Heap) (p : Nat) (hp : p < m.next)
    (later : List (Nat × Logger))
    (hlater : ∀ op ∈ later, op.1 ≠ (Hierarchy.CreateChild m p).1)
    (kvs : List LogVal) :
    Hierarchy.Log (setMany (Hierarchy.CreateChild m p).2 later)
        (Hierarchy.CreateChild m p).1 kvs
      = [{ receiver := LoggerImpl.hierarchy p, kvs := kvs }]
    ∧ (∀ fuel : Nat,
        exec (fuel + 2) (setMany (Hierarchy.CreateChild m p).2 later)
            [{ receiver := LoggerImpl.hierarchy (Hierarchy.CreateChild m p).1, kvs := kvs }]
          = (exec fuel (setMany (Hierarchy.CreateChild m p).2 later)
              (Hierarchy.Log (setMany (Hierarchy.CreateChild m p).2 later) p kvs)).map
              (fun t =>
                { receiver := LoggerImpl.hierarchy (Hierarchy.CreateChild m p).1, kvs := kvs }
                  :: { receiver := LoggerImpl.hierarchy p, kvs := kvs } :: t))
    ∧ (∀ L2 : LoggerImpl,
        Hierarchy.Log
            (Hierarchy.Set (setMany (Hierarchy.CreateChild m p).2 later) p (some L2))
            (Hierarchy.CreateChild m p).1 kvs
          = [{ receiver := LoggerImpl.hierarchy p, kvs := kvs }]
        ∧ Hierarchy.Log
            (Hierarchy.Set (setMany (Hierarchy.CreateChild m p).2 later) p (some L2)) p kvs
          = [{ receiver := L2, kvs := kvs }]
        ∧ (∀ fuel : Nat,
            exec (fuel + 2)
                (Hierarchy.Set (setMany (Hierarchy.CreateChild m p).2 later) p (some L2))
                [{ receiver := LoggerImpl.hierarchy (Hierarchy.CreateChild m p).1,
                   kvs := kvs }]
              = (exec fuel
                  (Hierarchy.Set (setMany (Hierarchy.CreateChild m p).2 later) p (some L2))
                  [{ receiver := L2, kvs := kvs }]).map
                  (fun t =>
                    { receiver := LoggerImpl.hierarchy (Hierarchy.CreateChild m p).1,
                      kvs := kvs }
                      :: { receiver := LoggerImpl.hierarchy p, kvs := kvs } :: t))
        ∧ (∀ id fuel : Nat, L2 = LoggerImpl.external id →
            exec (fuel + 3)
                (Hierarchy.Set (setMany (Hierarchy.CreateChild m p).2 later) p (some L2))
                [{ receiver := LoggerImpl.hierarchy (Hierarchy.CreateChild m p).1,
                   kvs := kvs }]
              = some [{ receiver := LoggerImpl.hierarchy (Hierarchy.CreateChild m p).1,
                        kvs := kvs },
                      { receiver := LoggerImpl.hierarchy p, kvs := kvs },
                      { receiver := L2, kvs := kvs }])) := by
  have hc : Hierarchy.Log (setMany (Hierarchy.CreateChild m p).2 later)
      (Hierarchy.CreateChild m p).1 kvs
        = [{ receiver := LoggerImpl.hierarchy p, kvs := kvs }] :=
    Log_of_loadLogger _ _ _ kvs (loadLogger_child_later m p later hlater)
  have hne : (Hierarchy.CreateChild m p).1 ≠ p := by
    rw [CreateChild_fst]; omega
  refine ⟨hc, ?_, ?_⟩
  · intro fuel
    rw [exec_hierarchy_step, hc, List.singleton_append, exec_hierarchy_step,
      List.append_nil, Option.map_map]
    rfl
  · intro L2
    have hc2 : Hierarchy.Log
        (Hierarchy.Set (setMany (Hierarchy.CreateChild m p).2 later) p (some L2))
        (Hierarchy.CreateChild m p).1 kvs
          = [{ receiver := LoggerImpl.hierarchy p, kvs := kvs }] := by
      apply Log_of_loadLogger
      rw [loadLogger_Set_other _ _ _ _ hne]
      exact loadLogger_child_later m p later hlater
    have hp2 : Hierarchy.Log
        (Hierarchy.Set (setMany (Hierarchy.CreateChild m p).2 later) p (some L2)) p kvs
          = [{ receiver := L2, kvs := kvs }] :=
      Log_of_loadLogger _ _ _ kvs (loadLogger_Set_same _ p (some L2))
    refine ⟨hc2, hp2, ?_, ?_⟩
    · intro fuel
      rw [exec_hierarchy_step, hc2, List.singleton_append, exec_hierarchy_step,
        List.append_nil, hp2, Option.map_map]
      rfl
    · intro id fuel hL
      subst hL
      rw [exec_hierarchy_step, hc2, List.singleton_append, exec_hierarchy_step,
        List.append_nil, hp2, exec_external_step, exec_nil]
      rfl

/-- Witness for C7: the root hierarchy 0 points to logger 7, its child (hierarchy 1) is
created, then the root is set to nil and after that to logger 8; a message logged on the
child reaches logger 8 through the root, and logger 7 is not called. -/
theorem CreateChild_forwards_to_parent_witness :
    (0 < (NewHierarchy Heap.empty (some (LoggerImpl.external 7))).2.next)
    ∧ (∀ op ∈ [((0 : Nat), (none : Logger))],
        op.1 ≠ (Hierarchy.CreateChild
          (NewHierarchy Heap.empty (some (LoggerImpl.external 7))).2 0).1)
    ∧ exec 3
        (Hierarchy.Set
          (setMany (Hierarchy.CreateChild
            (NewHierarchy Heap.empty (some (LoggerImpl.external 7))).2 0).2 [(0, none)])
          0 (some (LoggerImpl.external 8)))
        [{ receiver := LoggerImpl.hierarchy (Hierarchy.CreateChild
            (NewHierarchy Heap.empty (some (LoggerImpl.external 7))).2 0).1,
           kvs := [LogVal.str "hello"] }]
      = some [{ receiver := LoggerImpl.hierarchy (Hierarchy.CreateChild
                (NewHierarchy Heap.empty (some (LoggerImpl.external 7))).2 0).1,
                kvs := [LogVal.str "hello"] },
              { receiver := LoggerImpl.hierarchy 0, kvs := [LogVal.str "hello"] },
              { receiver := LoggerImpl.external 8, kvs := [LogVal.str "hello"] }] :=
  ⟨(by decide), (by decide),
   ((CreateChild_forwards_to_parent (NewHierarchy Heap.empty (some (LoggerImpl.external 7))).2
      0 (by decide) [(0, none)] (by decide) [LogVal.str "hello"]).2.2
      (LoggerImpl.external 8)).2.2.2 8 0 rfl⟩

end log

end golib

/-! ## Theorems: `distconf` -/

namespace golib

namespace distconf

theorem lookup_absent (readers : List Reader) (key : String)
    (h : ∀ r ∈ readers, ∀ v, r.Get key ≠ Except.ok (some v)) : lookup readers key = none := by
  induction readers with
  | nil => rfl
  | cons r rest ih =>
    have hr := h r (List.mem_cons_self _ _)
    have hrest : lookup rest key = none :=
      ih (fun r1 h1 => h r1 (List.mem_cons_of_mem _ h1))
    unfold lookup
    split
    · next v hv => exact absurd hv (hr v)
    · exact hrest

theorem Duration_default_of_absent {cb : Type} (d : Distconf) (key : String)
    (defaultVal : time.Duration)
    (h : ∀ r ∈ d.readers, ∀ v, r.Get key ≠ Except.ok (some v)) :
    (d.Duration key defaultVal : Duration cb).Get = defaultVal := by
  simp [Distconf.Duration, Duration.Get, lookup_absent d.readers key h, resolve]

/-- C1: on a coordination-service backing built by `Zk` from a connector that succeeds
with a connection free of faults, for every key and every raw value (a byte sequence `b`,
or the nil slice), `Write(key, b)` returns a nil error and the following `Get(key)` returns
`b` with a nil error. -/
theorem Zk_Write_then_Get (connector : Unit → Except GoError ZkConn) (conn : ZkConn)
    (hconn : connector () = Except.ok conn) (hfault : conn.fault = none)
    (key : String) (value : RawValue) :
    ∃ z : zkConfig, Zk connector = Except.ok z
      ∧ (z.Write key value).1 = none
      ∧ (z.Write key value).2.Get key = Except.ok value := by
  refine ⟨{ conn := conn, watched := [] }, ?_, ?_, ?_⟩
  · simp [Zk, hconn]
  · simp [zkConfig.Write, hfault]
  · simp [zkConfig.Write, zkConfig.Get, hfault]

/-- Witness for C1: the scenario of `TestZkConf`, key `TestZkConf` and value `newval`, on
a fresh server. -/
theorem Zk_Write_then_Get_witness :
    ∃ z : zkConfig,
      Zk (fun _ => Except.ok { nodes := fun _ => none, fault := none }) = Except.ok z
      ∧ (z.Write "TestZkConf" (some [110, 101, 119, 118, 97, 108])).1 = none
      ∧ (z.Write "TestZkConf" (some [110, 101, 119, 118, 97, 108])).2.Get "TestZkConf"
          = Except.ok (some [110, 101, 119, 118, 97, 108]) :=
  Zk_Write_then_Get (fun _ => Except.ok { nodes := fun _ => none, fault := none })
    { nodes := fun _ => none, fault := none } rfl rfl "TestZkConf"
    (some [110, 101, 119, 118, 97, 108])

end distconf

/-! ## Theorems: `clientcfg/client.go` -/

namespace clientcfg

/-- C2: for every registry whose backings hold no value for any key, after
`ClientConfig.Load(d)` the handle `ReportingInterval` returns one second, that is
1000000000 nanoseconds, from `Get()`. -/
theorem Load_ReportingInterval_default {σ : Type} (c : ClientConfig σ)
    (osHostname : σ → Except GoError String × σ) (d : distconf.Distconf)
    (h : ∀ r ∈ d.readers, ∀ key, r.Get key = Except.ok none) :
    (c.Load osHostname d).ReportingInterval.Get = time.Second
    ∧ (c.Load osHostname d).ReportingInterval.Get = 1000000000
    ∧ (c.Load osHostname d).ReportingInterval.key = "sf.metrics.report_interval" := by
  have habs : ∀ r ∈ d.readers, ∀ v,
      r.Get "sf.metrics.report_interval" ≠ Except.ok (some v) := by
    intro r hr v hv
    rw [h r hr "sf.metrics.report_interval"] at hv
    cases hv
  have hget : (c.Load osHostname d).ReportingInterval.Get = time.Second :=
    distconf.Duration_default_of_absent d "sf.metrics.report_interval" time.Second habs
  exact ⟨hget, hget, rfl⟩

/-- Witness for C2: a registry with a single in-memory Backing and no value written. -/
theorem Load_ReportingInterval_default_witness :
    (∀ r ∈ emptyRegistry.readers, ∀ key, r.Get key = Except.ok none)
    ∧ (emptyConf.Load fixedHostname emptyRegistry).ReportingInterval.Get = 1000000000 :=
  ⟨by simp [emptyRegistry, distconf.Mem],
   (Load_ReportingInterval_default emptyConf fixedHostname emptyRegistry
      (by simp [emptyRegistry, distconf.Mem])).2.1⟩

/-- C3: `DefaultDimensions` returns an error exactly when `SourceName.Get()` is empty and
`OsHostname` returns an error, and the map is then nil; otherwise the error is nil and the
map is the single entry `sf_source`, valued `SourceName.Get()` when that is non-empty and
else the hostname `OsHostname` returned. When `SourceName.Get()` is non-empty the result
is the same for every `OsHostname` and the environment is left as it was: `OsHostname` is
not called. -/
theorem DefaultDimensions_spec {σ : Type} (conf : ClientConfig σ) (env : σ) :
    (((DefaultDimensions conf env).1.2 ≠ none)
        ↔ (conf.SourceName.Get = "" ∧ ∃ e, (conf.OsHostname env).1 = Except.error e))
    ∧ ((DefaultDimensions conf env).1.2 ≠ none → (DefaultDimensions conf env).1.1 = none)
    ∧ (conf.SourceName.Get ≠ "" →
        ∀ f : σ → Except GoError String × σ,
          DefaultDimensions { conf with OsHostname := f } env
            = ((some [("sf_source", conf.SourceName.Get)], none), env))
    ∧ (conf.SourceName.Get = "" →
        ∀ hostname, (conf.OsHostname env).1 = Except.ok hostname →
          DefaultDimensions conf env
            = ((some [("sf_source", hostname)], none), (conf.OsHostname env).2))
    ∧ (conf.SourceName.Get = "" →
        ∀ e, (conf.OsHostname env).1 = Except.error e →
          DefaultDimensions conf env
            = ((none, some (GoError.annotate e "unable to get hostname for default source")),
                (conf.OsHostname env).2)) := by
  refine ⟨?_, ?_, ?_, ?_, ?_⟩
  · by_cases hs : conf.SourceName.Get = ""
    · rcases hcall : conf.OsHostname env with ⟨r, env1⟩
      cases r <;> simp [DefaultDimensions, hs, hcall]
    · simp [DefaultDimensions, hs]
  · by_cases hs : conf.SourceName.Get = ""
    · rcases hcall : conf.OsHostname env with ⟨r, env1⟩
      cases r <;> simp [DefaultDimensions, hs, hcall]
    · simp [DefaultDimensions, hs]
  · intro hs f
    have hs1 : ({ conf with OsHostname := f } : ClientConfig σ).SourceName.Get ≠ "" := hs
    simp only [DefaultDimensions]
    rw [if_pos hs1]
  · intro hs hostname hcall
    rcases hcall2 : conf.OsHostname env with ⟨r, env1⟩
    rw [hcall2] at hcall
    simp only at hcall
    subst hcall
    simp [DefaultDimensions, hs, hcall2]
  · intro hs e hcall
    rcases hcall2 : conf.OsHostname env with ⟨r, env1⟩
    rw [hcall2] at hcall
    simp only at hcall
    subst hcall
    simp [DefaultDimensions, hs, hcall2]

/-- Witness for C3: with a non-empty source name and a hostname lookup that counts its
calls, the source name is reported and the count stays 0; with an empty source name and a
failing lookup the error is not nil and the map is nil; with an empty source name and a
working lookup the hostname is reported. -/
theorem DefaultDimensions_spec_witness :
    DefaultDimensions
        { ({ emptyConf with SourceName := strHandle "signalfuse.sourceName" "src" }
            : ClientConfig Nat) with OsHostname := failingHostname } 0
      = ((some [("sf_source", "src")], none), 0)
    ∧ (DefaultDimensions { emptyConf with OsHostname := failingHostname } 0).1.1 = none
    ∧ DefaultDimensions emptyConf 0 = ((some [("sf_source", "host-a")], none), 1)
    ∧ DefaultDimensions { emptyConf with OsHostname := failingHostname } 0
      = ((none, some (GoError.annotate (GoError.new "no hostname")
            "unable to get hostname for default source")), 1) :=
  ⟨(DefaultDimensions_spec
      ({ emptyConf with SourceName := strHandle "signalfuse.sourceName" "src" }
        : ClientConfig Nat) 0).2.2.1 (by decide) failingHostname,
   (DefaultDimensions_spec { emptyConf with OsHostname := failingHostname } 0).2.1
      (((DefaultDimensions_spec { emptyConf with OsHostname := failingHostname } 0).1).2
        ⟨rfl, GoError.new "no hostname", rfl⟩),
   (DefaultDimensions_spec emptyConf 0).2.2.2.1 rfl "host-a" rfl,
   (DefaultDimensions_spec { emptyConf with OsHostname := failingHostname } 0).2.2.2.2 rfl
      (GoError.new "no hostname") rfl⟩

theorem sinks_assign_same (w : World) (p : Nat)
    (f : sfxclient.HTTPSink → sfxclient.HTTPSink) :
    (w.assign p f).sinks p = f (w.sinks p) := by
  simp [World.assign]

theorem sinks_assign_other (w : World) (p a : Nat)
    (f : sfxclient.HTTPSink → sfxclient.HTTPSink) (h : a ≠ p) :
    (w.assign p f).sinks a = w.sinks a := by
  simp [World.assign, h]

theorem authTokenWatch_some (s : ClientConfigChangerSink) (str : distconf.Str StrWatch)
    (oldValue : String) (w : World) (L : log.LoggerImpl) (hL : s.logger = some L) :
    s.authTokenWatch str oldValue w
      = some (World.assign
          { w with logged := w.logged ++ [{ receiver := L, kvs := [LogVal.str "auth watch"] }] }
          s.Destination (fun d => { d with AuthToken := str.Get })) := by
  simp [ClientConfigChangerSink.authTokenWatch, callLog, hL]

theorem disableCompressionWatch_some (s : ClientConfigChangerSink)
    (new : distconf.Bool BoolWatch) (old : GoBool) (w : World) (L : log.LoggerImpl)
    (hL : s.logger = some L) :
    s.disableCompressionWatch new old w
      = some (World.assign
          { w with
            logged := w.logged
              ++ [{ receiver := L, kvs := [LogVal.str "disableCompression watch"] }] }
          s.Destination (fun d => { d with DisableCompression := new.Get })) := by
  simp [ClientConfigChangerSink.disableCompressionWatch, callLog, hL]

theorem watch_none_of_nil_logger (urlString : URL → String) (s : ClientConfigChangerSink)
    (hL : s.logger = none) (w : World) :
    (∀ str oldValue, s.authTokenWatch str oldValue w = none)
    ∧ (∀ str oldValue, s.endpointWatch urlString str oldValue w = none)
    ∧ (∀ new old, s.disableCompressionWatch new old w = none) := by
  simp [ClientConfigChangerSink.authTokenWatch, ClientConfigChangerSink.endpointWatch,
    ClientConfigChangerSink.disableCompressionWatch, callLog, hL]

/-- With a logger that is not nil, `endpointWatch` returns, and it changes no field of any
sink other than `DatapointEndpoint`. -/
theorem endpointWatch_frame (urlString : URL → String) (s : ClientConfigChangerSink)
    (str : distconf.Str StrWatch) (oldValue : String) (w : World) (L : log.LoggerImpl)
    (hL : s.logger = some L) :
    ∃ w1, s.endpointWatch urlString str oldValue w = some w1
      ∧ ∀ a, (w1.sinks a).AuthToken = (w.sinks a).AuthToken
          ∧ (w1.sinks a).DisableCompression = (w.sinks a).DisableCompression := by
  unfold ClientConfigChangerSink.endpointWatch
  simp only [callLog, hL]
  repeat' split
  all_goals
    first
    | exact ⟨_, rfl, fun a => ⟨rfl, rfl⟩⟩
    | (refine ⟨_, rfl, fun a => ?_⟩
       by_cases ha : a = s.Destination
       · subst ha; simp [World.assign]
       · simp [World.assign, ha])

theorem append_http_ne_empty (e : String) : "http://" ++ e ≠ "" := by
  intro h
  have hlen : ("http://" ++ e).length = 0 := by rw [h]; rfl
  rw [String.length_append] at hlen
  have h7 : "http://".length = 7 := by decide
  omega

/-- The outcome of `WatchHTTPSinkChange` with a logger that is not nil: it returns, and
the returned sink and the state satisfy the listed equations. -/
theorem WatchHTTPSinkChange_some {σ : Type} (urlParse : String → Except GoError URL)
    (urlString : URL → String) (httpSink : Nat) (conf : ClientConfig σ)
    (L : log.LoggerImpl) (w : World) :
    ∃ r, WatchHTTPSinkChange urlParse urlString httpSink conf (some L) w = some r
      ∧ r.1.Destination = httpSink
      ∧ r.1.logger = some L
      ∧ r.2.1.AuthToken.Get = conf.AuthToken.Get
      ∧ r.2.1.DisableCompression.Get = conf.DisableCompression.Get
      ∧ (r.2.2.sinks httpSink).AuthToken = conf.AuthToken.Get
      ∧ (r.2.2.sinks httpSink).DisableCompression = conf.DisableCompression.Get := by
  obtain ⟨w2, hw2, hframe⟩ := endpointWatch_frame urlString
    { Destination := httpSink, urlParse := urlParse, logger := some L } conf.Endpoint ""
    (World.assign
      { w with logged := w.logged ++ [{ receiver := L, kvs := [LogVal.str "auth watch"] }] }
      httpSink (fun d => { d with AuthToken := conf.AuthToken.Get })) L rfl
  simp only [WatchHTTPSinkChange]
  rw [authTokenWatch_some _ _ _ _ L rfl]
  simp only
  rw [hw2]
  simp only
  rw [disableCompressionWatch_some _ _ _ _ L rfl]
  refine ⟨_, rfl, rfl, rfl, rfl, rfl, ?_, ?_⟩
  · simp only [sinks_assign_same]
    rw [(hframe httpSink).1, sinks_assign_same]
  · simp only [sinks_assign_same]

theorem WatchHTTPSinkChange_nil_logger {σ : Type} (urlParse : String → Except GoError URL)
    (urlString : URL → String) (httpSink : Nat) (conf : ClientConfig σ) (w : World) :
    WatchHTTPSinkChange urlParse urlString httpSink conf none w = none := by
  simp [WatchHTTPSinkChange, ClientConfigChangerSink.authTokenWatch, callLog]

/-- C4: for every `HTTPSink` (at address `httpSink`, whatever its fields hold) and every
configuration whose handles are loaded, `WatchHTTPSinkChange` (called with a logger that
is not nil) returns a value that has that sink as its `Destination`, and on return the
sink's `AuthToken` equals `conf.AuthToken.Get()` and its `DisableCompression` equals
`conf.DisableCompression.Get()`, whatever values the sink held before; registering the
callbacks leaves the values of the handles as they were. With a nil logger the call
panics and returns nothing. -/
theorem WatchHTTPSinkChange_sets_fields {σ : Type} (urlParse : String → Except GoError URL)
    (urlString : URL → String) (httpSink : Nat) (conf : ClientConfig σ)
    (L : log.LoggerImpl) (w : World) :
    (∃ r, WatchHTTPSinkChange urlParse urlString httpSink conf (some L) w = some r
        ∧ r.1.Destination = httpSink
        ∧ (r.2.2.sinks httpSink).AuthToken = conf.AuthToken.Get
        ∧ (r.2.2.sinks httpSink).DisableCompression = conf.DisableCompression.Get
        ∧ (r.2.2.sinks httpSink).AuthToken = r.2.1.AuthToken.Get
        ∧ (r.2.2.sinks httpSink).DisableCompression = r.2.1.DisableCompression.Get)
    ∧ WatchHTTPSinkChange urlParse urlString httpSink conf none w = none := by
  obtain ⟨r, hr, h1, _, h3, h4, h5, h6⟩ :=
    WatchHTTPSinkChange_some urlParse urlString httpSink conf L w
  refine ⟨⟨r, hr, h1, h5, h6, ?_, ?_⟩,
    WatchHTTPSinkChange_nil_logger urlParse urlString httpSink conf w⟩
  · rw [h5, h3]
  · rw [h6, h4]

/-- Witness for C4: a sink holding the token `stale` with compression disabled, and a
configuration loaded from an empty registry (empty token, compression not disabled): on
return the sink holds the empty token and compression is not disabled. -/
theorem WatchHTTPSinkChange_sets_fields_witness :
    (staleWorld.sinks 0).AuthToken = "stale" ∧ (staleWorld.sinks 0).DisableCompression = true
    ∧ ∃ r, WatchHTTPSinkChange simpleURLParse simpleURLString 0 emptyConf
          (some (log.LoggerImpl.external 5)) staleWorld = some r
        ∧ r.1.Destination = 0
        ∧ (r.2.2.sinks 0).AuthToken = ""
        ∧ (r.2.2.sinks 0).DisableCompression = false :=
  ⟨rfl, rfl,
   match (WatchHTTPSinkChange_sets_fields simpleURLParse simpleURLString 0 emptyConf
      (log.LoggerImpl.external 5) staleWorld).1 with
   | ⟨r, hr, h1, h2, h3, _, _⟩ => ⟨r, hr, h1, h2, h3⟩⟩

/-- C8: for every non-empty endpoint value `e` (with a logger that is not nil),
`endpointWatch` parses `e` itself when `e` begins with `http` and `"http://" + e`
otherwise; when the parser succeeds, it replaces an empty path by `/v2/datapoint`, keeps
a non-empty path, and stores the string form of that URL in
`Destination.DatapointEndpoint`. -/
theorem endpointWatch_stores_endpoint (urlString : URL → String)
    (s : ClientConfigChangerSink) (str : distconf.Str StrWatch) (oldValue : String)
    (w : World) (L : log.LoggerImpl) (hL : s.logger = some L) (he : str.Get ≠ "")
    (u0 : URL)
    (hu : s.urlParse
        (if stringsHasPrefix str.Get "http" = true then str.Get else "http://" ++ str.Get)
      = Except.ok u0) :
    ∃ w1, s.endpointWatch urlString str oldValue w = some w1
      ∧ (w1.sinks s.Destination).DatapointEndpoint
          = urlString (if u0.Path = "" then { u0 with Path := "/v2/datapoint" } else u0)
      ∧ (u0.Path = "" →
          (w1.sinks s.Destination).DatapointEndpoint
            = urlString { u0 with Path := "/v2/datapoint" })
      ∧ (u0.Path ≠ "" → (w1.sinks s.Destination).DatapointEndpoint = urlString u0) := by
  have key : ∃ w1, s.endpointWatch urlString str oldValue w = some w1
      ∧ (w1.sinks s.Destination).DatapointEndpoint
          = urlString (if u0.Path = "" then { u0 with Path := "/v2/datapoint" } else u0) := by
    by_cases hp : stringsHasPrefix str.Get "http" = true
    · rw [if_pos hp] at hu
      simp [ClientConfigChangerSink.endpointWatch, callLog, hL, he, hp, hu, World.assign]
    · rw [if_neg hp] at hu
      simp [ClientConfigChangerSink.endpointWatch, callLog, hL, he, hp, hu, World.assign,
        append_http_ne_empty]
  obtain ⟨w1, h1, h2⟩ := key
  refine ⟨w1, h1, h2, ?_, ?_⟩
  · intro hpath
    rw [h2, if_pos hpath]
  · intro hpath
    rw [h2, if_neg hpath]

/-- Witness for C8: the endpoint value `ingest.example.com` gives
`http://ingest.example.com/v2/datapoint`. -/
theorem endpointWatch_stores_endpoint_witness :
    ∃ w1, sampleChangerSink.endpointWatch simpleURLString
        (strHandle "sf.metrics.statsendpoint" "ingest.example.com") "" staleWorld = some w1
      ∧ (w1.sinks 0).DatapointEndpoint = "http://ingest.example.com/v2/datapoint" :=
  match endpointWatch_stores_endpoint simpleURLString sampleChangerSink
      (strHandle "sf.metrics.statsendpoint" "ingest.example.com") "" staleWorld
      (log.LoggerImpl.external 5) rfl (by decide)
      { Scheme := "http", Host := "ingest.example.com", Path := "", RawQuery := "",
        Fragment := "" } rfl with
  | ⟨w1, h1, _, h3, _⟩ => ⟨w1, h1, h3 rfl⟩

/-- C5, as stated, fails: given a sink that is not a `*sfxclient.HTTPSink`,
`WatchSinkChanges` returns a value that is not a `ClientConfigChangerSink`. -/
theorem WatchSinkChanges_other_sink_not_wrapped :
    (WatchSinkChanges simpleURLParse simpleURLString (some (SinkImpl.other 3)) emptyConf
        (some (log.LoggerImpl.external 5)) staleWorld).map
        (fun r => (Sink.asChangerSink r.1).isSome) = some false
    ∧ ¬ ∃ r s, WatchSinkChanges simpleURLParse simpleURLString (some (SinkImpl.other 3))
          emptyConf (some (log.LoggerImpl.external 5)) staleWorld = some r
        ∧ r.1 = some (SinkImpl.changerSink s) := by
  refine ⟨rfl, ?_⟩
  rintro ⟨r, s, hr, hs⟩
  simp only [WatchSinkChanges] at hr
  cases hr
  cases hs

/-- C5, amended: for a sink that is a `*sfxclient.HTTPSink`, `WatchSinkChanges` (called
with a logger that is not nil) returns the `ClientConfigChangerSink` that
`WatchHTTPSinkChange` builds, whose `Destination` is that sink; for every other sink, the
nil sink included, it returns the sink it was given and changes nothing. -/
theorem WatchSinkChanges_spec {σ : Type} (urlParse : String → Except GoError URL)
    (urlString : URL → String) (conf : ClientConfig σ) (w : World) :
    (∀ (p : Nat) (L : log.LoggerImpl),
        ∃ s conf1 w1,
          WatchSinkChanges urlParse urlString (some (SinkImpl.httpSink p)) conf (some L) w
            = some (some (SinkImpl.changerSink s), conf1, w1)
          ∧ s.Destination = p
          ∧ WatchHTTPSinkChange urlParse urlString p conf (some L) w = some (s, conf1, w1))
    ∧ (∀ (sink : Sink) (logger : log.Logger), (∀ p, sink ≠ some (SinkImpl.httpSink p)) →
        WatchSinkChanges urlParse urlString sink conf logger w = some (sink, conf, w)) := by
  refine ⟨?_, ?_⟩
  · intro p L
    obtain ⟨r, hr, h1, _⟩ := WatchHTTPSinkChange_some urlParse urlString p conf L w
    refine ⟨r.1, r.2.1, r.2.2, ?_, h1, hr⟩
    simp only [WatchSinkChanges]
    rw [hr]
  · intro sink logger hne
    cases sink with
    | none => rfl
    | some impl =>
      cases impl with
      | httpSink p => exact absurd rfl (hne p)
      | changerSink s => rfl
      | other id => rfl

/-- Witness for C5, amended: a sink of a kind other than `HTTPSink` comes back as it was,
also with a nil logger. -/
theorem WatchSinkChanges_spec_witness :
    (∀ p, (some (SinkImpl.other 3) : Sink) ≠ some (SinkImpl.httpSink p))
    ∧ WatchSinkChanges simpleURLParse simpleURLString (some (SinkImpl.other 3)) emptyConf
        none staleWorld
      = some (some (SinkImpl.other 3), emptyConf, staleWorld)
    ∧ (∃ s conf1 w1,
        WatchSinkChanges simpleURLParse simpleURLString (some (SinkImpl.httpSink 0))
            emptyConf (some (log.LoggerImpl.external 5)) staleWorld
          = some (some (SinkImpl.changerSink s), conf1, w1)
        ∧ s.Destination = 0
        ∧ WatchHTTPSinkChange simpleURLParse simpleURLString 0 emptyConf
            (some (log.LoggerImpl.external 5)) staleWorld = some (s, conf1, w1)) :=
  ⟨(by intro p h; cases h),
   (WatchSinkChanges_spec simpleURLParse simpleURLString emptyConf staleWorld).2
      (some (SinkImpl.other 3)) none (by intro p h; cases h),
   (WatchSinkChanges_spec simpleURLParse simpleURLString emptyConf staleWorld).1 0
      (log.LoggerImpl.external 5)⟩

end clientcfg

end golib
